import Mathlib

/-!
Verification of the polymarket whale-tracking pipeline.

The Python sources are shallowly embedded: SQLite tables become lists of
records inside a `DB` state, SQL `UPDATE ... WHERE` statements become maps
over those lists, and the procedural loops of `resolution_checker.py`,
`database.py`, `tracker.py`, `scripts/new_scoring_system.py` and
`scripts/trade_signals.py` become folds and recursions.  Floats are
modelled by rationals; Python's `x or d` NULL/zero coercions are made
explicit; `Optional` results become `Option`.
-/

/-- One row of the `trades` table (a position). -/
structure Trade where
  id : ℕ
  whale_address : String
  market_id : String
  market_question : String
  side : String
  size : ℚ
  entry_price : ℚ
  resolved : Bool
  outcome : Option String
  pnl : Option ℚ
deriving DecidableEq, Repr

/-- One row of the `whales` table (a participant). -/
structure Whale where
  address : String
  win_count : ℕ
  loss_count : ℕ
deriving DecidableEq, Repr

/-- One row of the `markets` table. -/
structure Market where
  market_id : String
  question : String
  resolved : Bool
  resolution : Option String
deriving DecidableEq, Repr

/-- The SQLite database state: the three tables plus the AUTOINCREMENT
counter backing `trades.id`. -/
structure DB where
  whales : List Whale
  trades : List Trade
  markets : List Market
  next_id : ℕ
deriving DecidableEq, Repr

/-- Python's `str.upper()` for the ASCII data handled here, written over
the character list so that it evaluates by kernel reduction. -/
def upperStr (s : String) : String :=
  String.mk (s.data.map Char.toUpper)

namespace ResolutionChecker

/-- Models `float(trade['entry_price'] or 0.5)` in `resolve_market_trades`:
a zero (or NULL, folded into 0 here) entry price is coerced to 0.5
because `0` is falsy in Python. -/
def coercedEntryPrice (p : ℚ) : ℚ :=
  if p = 0 then 1/2 else p

/-- Models `won = (side == winner)` after `(trade['side'] or '').upper()`. -/
def tradeWon (winner : String) (t : Trade) : Bool :=
  upperStr t.side = winner

/-- The PnL assigned by `ResolutionChecker.resolve_market_trades`:
`shares = size / entry_price if entry_price > 0 else 0; pnl = shares - size`
on a win, `pnl = -size` on a loss. -/
def tradePnl (winner : String) (t : Trade) : ℚ :=
  let ep := coercedEntryPrice t.entry_price
  if tradeWon winner t then
    (if 0 < ep then t.size / ep - t.size else 0 - t.size)
  else
    -t.size

/-- Effect of the `UPDATE trades SET resolved = 1, outcome = ?, pnl = ?`
statement on a single row: rows selected by
`market_id = ? AND (resolved = 0 OR resolved IS NULL)` are rewritten,
all others kept. -/
def resolveTradeRow (mid winner : String) (t : Trade) : Trade :=
  if t.market_id = mid ∧ t.resolved = false then
    { t with resolved := true
             outcome := some (if tradeWon winner t then "WIN" else "LOSS")
             pnl := some (tradePnl winner t) }
  else t

/-- The trades selected at the top of `resolve_market_trades`. -/
def selectedTrades (mid : String) (db : DB) : List Trade :=
  db.trades.filter (fun t => decide (t.market_id = mid) && !t.resolved)

/-- Wins accumulated for one whale in the `whale_updates` dictionary. -/
def whaleWins (winner addr : String) (sel : List Trade) : ℕ :=
  (sel.filter (fun t => decide (t.whale_address = addr) && tradeWon winner t)).length

/-- Losses accumulated for one whale in the `whale_updates` dictionary. -/
def whaleLosses (winner addr : String) (sel : List Trade) : ℕ :=
  (sel.filter (fun t => decide (t.whale_address = addr) && !tradeWon winner t)).length

/-- Models `ResolutionChecker.resolve_market_trades`: resolves every unresolved
trade of the market, adds the per-whale win/loss deltas to the `whales`
table, and unconditionally stamps the market row as resolved with the
given winner. -/
def resolveMarketTrades (mid winner : String) (db : DB) : DB :=
  let sel := selectedTrades mid db
  { db with
    trades := db.trades.map (resolveTradeRow mid winner)
    whales := db.whales.map (fun w =>
      { w with win_count := w.win_count + whaleWins winner w.address sel
               loss_count := w.loss_count + whaleLosses winner w.address sel })
    markets := db.markets.map (fun m =>
      if m.market_id = mid then
        { m with resolved := true, resolution := some winner }
      else m) }

end ResolutionChecker

namespace Database

/-- Models `Database.add_trade`: a plain `INSERT INTO trades` with no duplicate
check; returns the fresh surrogate id. -/
def add_trade (db : DB) (whale_address market_id market_question side : String)
    (size entry_price : ℚ) : ℕ × DB :=
  let t : Trade :=
    { id := db.next_id, whale_address := whale_address, market_id := market_id
      market_question := market_question, side := side, size := size
      entry_price := entry_price, resolved := false, outcome := none, pnl := none }
  (db.next_id, { db with trades := db.trades ++ [t], next_id := db.next_id + 1 })

/-- Models `Database.trade_exists`: is there a trade with this
(participant, market, side) key? -/
def trade_exists (db : DB) (w m s : String) : Bool :=
  db.trades.any (fun t =>
    decide (t.whale_address = w) && decide (t.market_id = m) && decide (t.side = s))

/-- Models `Database.resolve_trade`: unconditional
`UPDATE trades SET resolved = TRUE, outcome = ?, pnl = ? WHERE id = ?`. -/
def resolve_trade (db : DB) (tid : ℕ) (outcome : String) (pnl : ℚ) : DB :=
  { db with trades := db.trades.map (fun t =>
      if t.id = tid then
        { t with resolved := true, outcome := some outcome, pnl := some pnl }
      else t) }

/-- Models `Database.get_whale`. -/
def get_whale (db : DB) (address : String) : Option Whale :=
  db.whales.find? (fun w => decide (w.address = address))

/-- Models `Database.update_whale_stats`. -/
def update_whale_stats (db : DB) (address : String) (wc lc : ℕ) : DB :=
  { db with whales := db.whales.map (fun w =>
      if w.address = address then { w with win_count := wc, loss_count := lc } else w) }

/-- The win test of `Database.resolve_trades_by_market`:
`(side == "YES" and resolution == "YES") or (side == "NO" and resolution == "NO")`. -/
def dbWon (resolution : String) (t : Trade) : Bool :=
  (decide (upperStr t.side = "YES") && decide (resolution = "YES")) ||
  (decide (upperStr t.side = "NO") && decide (resolution = "NO"))

/-- The PnL model of `Database.resolve_trades_by_market`:
`size * (1 - entry_price)` on a win, `-size * entry_price` on a loss. -/
def dbPnl (resolution : String) (t : Trade) : ℚ :=
  if dbWon resolution t then t.size * (1 - t.entry_price)
  else -(t.size * t.entry_price)

/-- One iteration of the loop in `Database.resolve_trades_by_market`:
resolve the trade, then increment the owning whale's counter. -/
def resolveStep (resolution : String) (db : DB) (t : Trade) : DB :=
  let outcome := if dbWon resolution t then "WIN" else "LOSS"
  let db1 := resolve_trade db t.id outcome (dbPnl resolution t)
  match get_whale db1 t.whale_address with
  | none => db1
  | some w =>
      if dbWon resolution t then
        update_whale_stats db1 t.whale_address (w.win_count + 1) w.loss_count
      else
        update_whale_stats db1 t.whale_address w.win_count (w.loss_count + 1)

/-- Models `Database.resolve_trades_by_market`: fetch the unresolved trades of
the market, then resolve them one by one. -/
def resolve_trades_by_market (db : DB) (market_id resolution : String) : DB :=
  (db.trades.filter (fun t => decide (t.market_id = market_id) && !t.resolved)).foldl
    (resolveStep resolution) db

/-- Models `Database.resolve_market`: unconditionally stamps the market row
(`UPDATE markets SET resolved = TRUE, resolution = ?`) and then resolves
its trades.  There is no check against an existing, different resolution. -/
def resolve_market (db : DB) (market_id resolution : String) : DB :=
  let db1 := { db with markets := db.markets.map (fun m =>
      if m.market_id = market_id then
        { m with resolved := true, resolution := some resolution }
      else m) }
  resolve_trades_by_market db1 market_id resolution

/-- Models `Database.add_market`: `INSERT OR IGNORE INTO markets`. -/
def add_market (db : DB) (market_id question : String) : DB :=
  if db.markets.any (fun m => decide (m.market_id = market_id)) then db
  else { db with markets := db.markets ++
          [{ market_id := market_id, question := question
             resolved := false, resolution := none }] }

end Database

namespace Tracker

/-- One position returned by the position feed. -/
structure Position where
  market_id : String
  market_question : String
  side : String
  size : ℚ
  entry_price : ℚ
deriving DecidableEq, Repr

/-- The body of the per-position loop of
`WhaleTracker.check_whale_positions`: skip empty market ids, skip
positions whose (whale, market, side) key already exists, otherwise add
the market and insert the trade. -/
def processPosition (db : DB) (whale_address : String) (pos : Position) : DB :=
  if pos.market_id = "" then db
  else if Database.trade_exists db whale_address pos.market_id pos.side then db
  else
    let db1 := Database.add_market db pos.market_id pos.market_question
    (Database.add_trade db1 whale_address pos.market_id pos.market_question
      pos.side pos.size pos.entry_price).2

/-- Number of trades stored under one (participant, market, side) key. -/
def countKey (db : DB) (w m s : String) : ℕ :=
  (db.trades.filter (fun t =>
    decide (t.whale_address = w) && decide (t.market_id = m) && decide (t.side = s))).length

end Tracker

namespace Oracle

/-- One element of the `tokens` list of a CLOB market payload. -/
structure Token where
  winner : Bool
  outcome : String
  price : ℚ
deriving DecidableEq, Repr

/-- The fields of a CLOB market payload read by the checker. -/
structure MarketData where
  closed : Bool
  question : String
  tokens : List Token
deriving DecidableEq, Repr

/-- What one HTTP round trip in `check_market_resolution` can produce:
a timeout, some other raised exception, or an HTTP status together with
an optional parsed body (`none` models a missing or falsy body). -/
inductive ApiResponse where
  | timeout : ApiResponse
  | exn : ApiResponse
  | http (status : ℕ) (body : Option MarketData) : ApiResponse
deriving DecidableEq, Repr

/-- The resolution record returned on success. -/
structure MarketResolution where
  market_id : String
  question : String
  winner : String
deriving DecidableEq, Repr

/-- The first loop's test: `token.get('winner', False)` and an
uppercased outcome in `('YES', 'NO')`. -/
def flagTest (t : Token) : Bool :=
  t.winner && (decide (upperStr t.outcome = "YES") || decide (upperStr t.outcome = "NO"))

/-- The second loop's test: `price > 0.99` (strict) and an uppercased
outcome in `('YES', 'NO')`. -/
def priceTest (t : Token) : Bool :=
  decide (99/100 < t.price) &&
    (decide (upperStr t.outcome = "YES") || decide (upperStr t.outcome = "NO"))

/-- First loop of `check_market_resolution`: the first token carrying an
explicit `winner` flag with a YES/NO outcome. -/
def findFlagWinner : List Token → Option String
  | [] => none
  | t :: ts => if flagTest t then some (upperStr t.outcome) else findFlagWinner ts

/-- Second loop of `check_market_resolution`: the first YES/NO token whose
price is strictly above 0.99. -/
def findPriceWinner : List Token → Option String
  | [] => none
  | t :: ts => if priceTest t then some (upperStr t.outcome) else findPriceWinner ts

/-- Models `ResolutionChecker.check_market_resolution` as a function of the HTTP
round trip's outcome: every exceptional or non-200 or bodyless branch
returns `none`; a closed market is scanned with the two winner tiers. -/
def check_market_resolution (market_id : String) (resp : ApiResponse) :
    Option MarketResolution :=
  match resp with
  | .timeout => none
  | .exn => none
  | .http status body =>
      if status = 404 then none
      else if status ≠ 200 then none
      else
        match body with
        | none => none
        | some d =>
            if ¬d.closed then none
            else
              let w1 := findFlagWinner d.tokens
              let w := match w1 with
                | some v => some v
                | none => if d.tokens ≠ [] then findPriceWinner d.tokens else none
              match w with
              | some v => some { market_id := market_id, question := d.question, winner := v }
              | none => none

/-- A response is a transient failure when the request timed out, raised,
came back with a non-200 status, or had a missing/malformed body. -/
def transientFailure : ApiResponse → Prop
  | .timeout => True
  | .exn => True
  | .http status body => status ≠ 200 ∨ body = none

/-- Spec-side formulation of the two-tier winner scan, written with
`List.find?`: the explicit winner flag preferred, then the strict
price-threshold backstop. -/
def twoTierWinner (tokens : List Token) : Option String :=
  match tokens.find? flagTest with
  | some t => some (upperStr t.outcome)
  | none =>
      match tokens.find? priceTest with
      | some t => some (upperStr t.outcome)
      | none => none

/-- The two-tier resolution policy as a whole-call function: explicit
winner flag preferred, strict `> 0.99` price backstop, `none` on any
failure or open market. -/
def specCheck (market_id : String) (resp : ApiResponse) : Option MarketResolution :=
  match resp with
  | .timeout => none
  | .exn => none
  | .http status body =>
      if status = 200 then
        match body with
        | none => none
        | some d =>
            if d.closed then
              match twoTierWinner d.tokens with
              | some v => some { market_id := market_id, question := d.question, winner := v }
              | none => none
            else none
      else none

/-- The claim's price tier taken literally: price *at least* 0.99
(`≥`, where the code uses `>`). -/
def claimPriceTest (t : Token) : Bool :=
  decide (99/100 ≤ t.price) &&
    (decide (upperStr t.outcome = "YES") || decide (upperStr t.outcome = "NO"))

/-- The claim's resolution policy with its `≥ 0.99` backstop. -/
def claimWinner (tokens : List Token) : Option String :=
  match tokens.find? flagTest with
  | some t => some (upperStr t.outcome)
  | none =>
      match tokens.find? claimPriceTest with
      | some t => some (upperStr t.outcome)
      | none => none

/-- The claim's `check_market_resolution`, with the `≥ 0.99` tier. -/
def claimCheck (market_id : String) (resp : ApiResponse) : Option MarketResolution :=
  match resp with
  | .timeout => none
  | .exn => none
  | .http status body =>
      if status = 200 then
        match body with
        | none => none
        | some d =>
            if d.closed then
              match claimWinner d.tokens with
              | some v => some { market_id := market_id, question := d.question, winner := v }
              | none => none
            else none
      else none

end Oracle

/-- Insert into a descending-sorted list, placing the new element before
the first element whose key does not exceed its own.  Equal-key elements
already in the list therefore end up behind the inserted one, which is
what stability demands when the inserted element originally preceded
them. -/
def insertDesc {α β : Type} [LinearOrder β] (score : α → β) (x : α) :
    List α → List α
  | [] => [x]
  | b :: t => if score b ≤ score x then x :: b :: t else b :: insertDesc score x t

/-- Stable descending sort by a key, the pure meaning of Python's
`list.sort(key=..., reverse=True)` (Timsort is stable, and `reverse=True`
keeps equal-key elements in their original order). -/
def sortKeyDesc {α β : Type} [LinearOrder β] (score : α → β) : List α → List α
  | [] => []
  | x :: t => insertDesc score x (sortKeyDesc score t)

namespace Scoring

/-- The per-whale dictionary produced by
`PerformanceAnalyzer.get_whale_performance`, restricted to the fields the
ranking reads.  `profit_factor` is `none` when the whale has no losing
trades (Python's `float('inf')`). -/
structure PerfRecord where
  address : String
  total_trades : ℕ
  win_rate : ℚ
  roi : ℚ
  profit_factor : Option ℚ
deriving DecidableEq, Repr

/-- Models `sample_confidence = min(1.0, total_trades / 50)` from
`get_whale_performance`. -/
def sample_confidence (w : PerfRecord) : ℚ :=
  min 1 ((w.total_trades : ℚ) / 50)

/-- Models `min(whale['profit_factor'], 3)` in `ranking_score`, with the
infinite profit factor capped at 3. -/
def cappedProfitFactor (w : PerfRecord) : ℚ :=
  match w.profit_factor with
  | none => 3
  | some q => min q 3

/-- Models `ranking_score` from `PerformanceAnalyzer.rank_whales`. -/
def ranking_score (w : PerfRecord) : ℚ :=
  w.roi * sample_confidence w + (w.win_rate - 50) * (1/2) + cappedProfitFactor w * 10

/-- Models `PerformanceAnalyzer.rank_whales`: stable sort by descending
ranking score. -/
def rank_whales (l : List PerfRecord) : List PerfRecord :=
  sortKeyDesc ranking_score l

end Scoring

namespace Signals

/-- Round to the nearest integer, ties to the even integer — Python's
`round` (banker's rounding). -/
def roundHalfEven (x : ℚ) : ℤ :=
  let n := ⌊x⌋
  let r := x - n
  if r < 1/2 then n
  else if 1/2 < r then n + 1
  else if n % 2 = 0 then n else n + 1

/-- Python's `round(x, 1)`. -/
def roundTenth (x : ℚ) : ℚ :=
  (roundHalfEven (10 * x) : ℚ) / 10

/-- A proven whale as assembled by
`TradeSignalsGenerator.get_proven_whales` (fields read downstream). -/
structure ProvenWhale where
  address : String
  win_rate : ℚ
  roi : ℚ
  resolved_trades : ℕ
  total_pnl : ℚ
deriving DecidableEq, Repr

/-- The live price data returned by `get_current_market_price`. -/
structure PriceData where
  yes_price : ℚ
  no_price : ℚ
  active : Bool
deriving DecidableEq, Repr

/-- The fields of a recent unresolved trade read by `generate_signals`. -/
structure OpenTrade where
  market_id : String
  market_question : String
  side : String
  size : ℚ
  entry_price : ℚ
deriving DecidableEq, Repr

/-- Models `TradeSignalsGenerator.calculate_edge`, including its final
`round(edge, 1)`. -/
def calculate_edge (whale_win_rate whale_roi current_price : ℚ)
    (direction : String) : ℚ :=
  let base_prob := whale_win_rate / 100
  let roi_multiplier := min (3/2) (1 + whale_roi / 100)
  let adjusted_prob := min (19/20) (base_prob * roi_multiplier)
  let market_implied_prob :=
    if upperStr direction = "YES" then current_price else 1 - current_price
  roundTenth ((adjusted_prob - market_implied_prob) / market_implied_prob * 100)

/-- An individual signal (fields read by consensus detection). -/
structure Signal where
  market_id : String
  market_question : String
  direction : String
  whale_address : String
  win_rate : ℚ
  resolved_trades : ℕ
  edge_estimate : ℚ
deriving DecidableEq, Repr

/-- The per-trade body of `TradeSignalsGenerator.generate_signals`:
skip empty market ids, skip missing or inactive price data, pick the
side's current price, and emit a signal exactly when the computed edge
passes the strict `edge > 5` filter. -/
def signalFor (whale : ProvenWhale) (trade : OpenTrade)
    (price_data : Option PriceData) : Option Signal :=
  if trade.market_id = "" then none
  else
    match price_data with
    | none => none
    | some pd =>
        if !pd.active then none
        else
          let direction := if trade.side = "" then "YES" else upperStr trade.side
          let current_price := if direction = "YES" then pd.yes_price else pd.no_price
          let edge := calculate_edge whale.win_rate whale.roi current_price direction
          if 5 < edge then
            some { market_id := trade.market_id
                   market_question := trade.market_question
                   direction := direction
                   whale_address := whale.address
                   win_rate := whale.win_rate
                   resolved_trades := whale.resolved_trades
                   edge_estimate := edge }
          else none

/-- The claim's implied probability:
`min(0.95, win_rate/100 * min(1.5, 1 + roi/100))`. -/
def impliedProbability (win_rate roi : ℚ) : ℚ :=
  min (19/20) (win_rate / 100 * min (3/2) (1 + roi / 100))

/-- The claim's market-implied probability: the current price for
YES-direction bets, `1 - price` for NO-direction bets. -/
def marketImpliedProbability (direction : String) (price : ℚ) : ℚ :=
  if direction = "YES" then price else 1 - price

/-- The claim's raw (unrounded) edge formula. -/
def rawEdge (win_rate roi price : ℚ) (direction : String) : ℚ :=
  (impliedProbability win_rate roi - marketImpliedProbability direction price) /
    marketImpliedProbability direction price * 100

/-- The key `f"{market_id}_{direction}"` used to group signals. -/
def signalKey (s : Signal) : String × String :=
  (s.market_id, s.direction)

/-- The signals accumulated under one (market, direction) key. -/
def groupSignals (signals : List Signal) (k : String × String) : List Signal :=
  signals.filter (fun s => decide (s.market_id = k.1) && decide (s.direction = k.2))

/-- A whale entry of a consensus group. -/
structure ConsensusWhale where
  address : String
  win_rate : ℚ
  resolved_trades : ℕ
  edge : ℚ
deriving DecidableEq, Repr

/-- A consensus group as built by `detect_consensus_signals`. -/
structure Consensus where
  market_id : String
  market_question : String
  direction : String
  whales : List ConsensusWhale
  total_edge : ℚ
  avg_win_rate : ℚ
  total_resolved_trades : ℕ
  avg_edge : ℚ
  whale_count : ℕ
deriving DecidableEq, Repr

/-- The group a key produces, if it passes the `len(whales) >= 2` gate. -/
def mkConsensus (signals : List Signal) (k : String × String) : Option Consensus :=
  let grp := groupSignals signals k
  if 2 ≤ grp.length then
    some { market_id := k.1
           market_question := (grp.head?.map (·.market_question)).getD ""
           direction := k.2
           whales := grp.map (fun s =>
             { address := s.whale_address, win_rate := s.win_rate
               resolved_trades := s.resolved_trades, edge := s.edge_estimate })
           total_edge := (grp.map (·.edge_estimate)).sum
           avg_win_rate := (grp.map (·.win_rate)).sum / grp.length
           total_resolved_trades := (grp.map (·.resolved_trades)).sum
           avg_edge := (grp.map (·.edge_estimate)).sum / grp.length
           whale_count := grp.length }
  else none

/-- Models `TradeSignalsGenerator.detect_consensus_signals`: group the signals
by (market, direction), keep the keys holding at least two signals, and
sort the groups by (average edge, average win rate) descending. -/
def detect_consensus_signals (signals : List Signal) : List Consensus :=
  sortKeyDesc (fun g => toLex (g.avg_edge, g.avg_win_rate))
    (((signals.map signalKey).dedup).filterMap (mkConsensus signals))

end Signals

theorem insertDesc_perm {α β : Type} [LinearOrder β] (score : α → β) (x : α)
    (l : List α) : List.Perm (insertDesc score x l) (x :: l) := by
  induction l with
  | nil => rfl
  | cons b t ih =>
      unfold insertDesc
      by_cases h : score b ≤ score x
      · rw [if_pos h]
      · rw [if_neg h]
        exact (ih.cons b).trans (List.Perm.swap x b t)

theorem sortKeyDesc_perm {α β : Type} [LinearOrder β] (score : α → β)
    (l : List α) : List.Perm (sortKeyDesc score l) l := by
  induction l with
  | nil => rfl
  | cons x t ih =>
      exact (insertDesc_perm score x (sortKeyDesc score t)).trans (ih.cons x)

theorem insertDesc_sorted {α β : Type} [LinearOrder β] (score : α → β) (x : α)
    {l : List α} (h : l.Pairwise (fun a b => score b ≤ score a)) :
    (insertDesc score x l).Pairwise (fun a b => score b ≤ score a) := by
  induction l with
  | nil => simp [insertDesc]
  | cons b t ih =>
      rw [List.pairwise_cons] at h
      obtain ⟨hb, ht⟩ := h
      unfold insertDesc
      by_cases hle : score b ≤ score x
      · rw [if_pos hle]
        refine List.Pairwise.cons ?_ (List.Pairwise.cons hb ht)
        intro y hy
        rcases List.mem_cons.1 hy with rfl | hy
        · exact hle
        · exact le_trans (hb y hy) hle
      · rw [if_neg hle]
        refine List.Pairwise.cons ?_ (ih ht)
        intro y hy
        rcases List.mem_cons.1 ((insertDesc_perm score x t).mem_iff.1 hy) with rfl | hy'
        · exact le_of_lt (not_le.mp hle)
        · exact hb y hy'

theorem sortKeyDesc_sorted {α β : Type} [LinearOrder β] (score : α → β)
    (l : List α) :
    (sortKeyDesc score l).Pairwise (fun a b => score b ≤ score a) := by
  induction l with
  | nil => simp [sortKeyDesc]
  | cons x t ih => exact insertDesc_sorted score x ih

theorem filter_insertDesc {α β : Type} [LinearOrder β] (score : α → β)
    (c : β) (x : α) (l : List α) :
    (insertDesc score x l).filter (fun a => decide (score a = c)) =
      if score x = c then x :: l.filter (fun a => decide (score a = c))
      else l.filter (fun a => decide (score a = c)) := by
  induction l with
  | nil => by_cases h : score x = c <;> simp [insertDesc, h]
  | cons b t ih =>
      unfold insertDesc
      by_cases hle : score b ≤ score x
      · rw [if_pos hle]
        by_cases h : score x = c <;> simp [List.filter_cons, h]
      · rw [if_neg hle]
        by_cases h : score x = c
        · have hb : ¬score b = c := by
            rw [← h]
            exact ne_of_gt (not_le.mp hle)
          simp [List.filter_cons, hb, ih, h]
        · simp [List.filter_cons, ih, h]

theorem filter_sortKeyDesc {α β : Type} [LinearOrder β] (score : α → β)
    (c : β) (l : List α) :
    (sortKeyDesc score l).filter (fun a => decide (score a = c)) =
      l.filter (fun a => decide (score a = c)) := by
  induction l with
  | nil => rfl
  | cons x t ih =>
      show (insertDesc score x (sortKeyDesc score t)).filter _ = _
      rw [filter_insertDesc]
      by_cases h : score x = c <;> simp [List.filter_cons, h, ih]

theorem findFlagWinner_eq_find (l : List Oracle.Token) :
    Oracle.findFlagWinner l =
      (l.find? Oracle.flagTest).map (fun t => upperStr t.outcome) := by
  induction l with
  | nil => rfl
  | cons t ts ih =>
      unfold Oracle.findFlagWinner
      cases h : Oracle.flagTest t <;> simp [List.find?_cons, h, ih]

theorem findPriceWinner_eq_find (l : List Oracle.Token) :
    Oracle.findPriceWinner l =
      (l.find? Oracle.priceTest).map (fun t => upperStr t.outcome) := by
  induction l with
  | nil => rfl
  | cons t ts ih =>
      unfold Oracle.findPriceWinner
      cases h : Oracle.priceTest t <;> simp [List.find?_cons, h, ih]

theorem winner_scan_eq_twoTier (tokens : List Oracle.Token) :
    (match Oracle.findFlagWinner tokens with
     | some v => some v
     | none => if tokens ≠ [] then Oracle.findPriceWinner tokens else none) =
      Oracle.twoTierWinner tokens := by
  rw [findFlagWinner_eq_find, findPriceWinner_eq_find]
  unfold Oracle.twoTierWinner
  cases hf : tokens.find? Oracle.flagTest with
  | some t => simp
  | none =>
      cases tokens with
      | nil => simp
      | cons a l => cases hp : (a :: l).find? Oracle.priceTest <;> simp [hp]

/-- Claim C5, amended: `check_market_resolution` determines the winner in
two tiers — the explicit winner flag when a YES/NO token carries one,
otherwise, for a closed market, the first YES/NO token whose price is
strictly greater than 0.99 — and reports not-resolved (`none`) when
neither tier yields a winner; the whole call equals the two-tier policy
`specCheck`. -/
theorem check_market_resolution_two_tier (mid : String)
    (resp : Oracle.ApiResponse) :
    Oracle.check_market_resolution mid resp = Oracle.specCheck mid resp := by
  cases resp with
  | timeout => rfl
  | exn => rfl
  | http status body =>
      simp only [Oracle.check_market_resolution, Oracle.specCheck]
      by_cases h4 : status = 404
      · subst h4
        simp
      · rw [if_neg h4]
        by_cases h2 : status = 200
        · subst h2
          simp only [ne_eq, not_true_eq_false, if_false, if_true, reduceIte]
          cases body with
          | none => rfl
          | some d =>
              by_cases hc : d.closed
              · simp only [hc, not_true_eq_false, if_false, if_true, reduceIte]
                rw [← winner_scan_eq_twoTier]
              · simp [hc]
        · simp [h2]

/-- Claim C5, counterexample: on a closed market whose only token has no
winner flag and price exactly 0.99, the claim's `≥ 0.99` tier declares a
YES winner, but the code's strict `> 0.99` tier reports not resolved. -/
theorem check_market_resolution_ge_threshold_cx :
    Oracle.claimCheck "m" (Oracle.ApiResponse.http 200 (some
        { closed := true, question := "q"
          tokens := [{ winner := false, outcome := "YES", price := 99/100 }] })) =
      some { market_id := "m", question := "q", winner := "YES" } ∧
    Oracle.check_market_resolution "m" (Oracle.ApiResponse.http 200 (some
        { closed := true, question := "q"
          tokens := [{ winner := false, outcome := "YES", price := 99/100 }] })) =
      none := by
  constructor <;> with_unfolding_all rfl

/-- Claim C6: `check_market_resolution` never raises and returns `none`
(not resolved) on every transient external failure — timeout, raised
exception, non-200 HTTP status, or missing/malformed body — so the
caller can retry on a later pass. -/
theorem check_market_resolution_transient_none (mid : String)
    (resp : Oracle.ApiResponse) (h : Oracle.transientFailure resp) :
    Oracle.check_market_resolution mid resp = none := by
  cases resp with
  | timeout => rfl
  | exn => rfl
  | http status body =>
      unfold Oracle.check_market_resolution
      rcases h with h | h
      · by_cases h4 : status = 404
        · simp [h4]
        · simp [h4, h]
      · subst h
        by_cases h4 : status = 404
        · simp [h4]
        · by_cases h2 : status = 200 <;> simp [h4, h2]

/-- Claim C6, witness: a timeout is reported as not resolved. -/
theorem check_market_resolution_transient_none_witness :
    Oracle.check_market_resolution "m" Oracle.ApiResponse.timeout = none :=
  check_market_resolution_transient_none "m" Oracle.ApiResponse.timeout trivial

theorem resolveStep_markets (res : String) (db : DB) (t : Trade) :
    (Database.resolveStep res db t).markets = db.markets := by
  simp only [Database.resolveStep]
  split
  · rfl
  · split <;> rfl

theorem foldl_resolveStep_markets (res : String) (l : List Trade) (db : DB) :
    (l.foldl (Database.resolveStep res) db).markets = db.markets := by
  induction l generalizing db with
  | nil => rfl
  | cons t ts ih => rw [List.foldl_cons, ih, resolveStep_markets]

theorem resolve_trades_by_market_markets (db : DB) (mid res : String) :
    (Database.resolve_trades_by_market db mid res).markets = db.markets :=
  foldl_resolveStep_markets res _ db

/-- Claim C2, amended: `Database.resolve_market` is an unconditional
overwrite — it always stamps the matching market row resolved with the
given outcome, with no check against a previously stored, different
resolution, so a second call silently replaces the outcome instead of
failing or no-opping. -/
theorem resolve_market_unconditional (db : DB) (mid res : String) :
    (Database.resolve_market db mid res).markets =
      db.markets.map (fun m =>
        if m.market_id = mid then { m with resolved := true, resolution := some res }
        else m) := by
  unfold Database.resolve_market
  rw [resolve_trades_by_market_markets]

/-- A database whose only market is already resolved with outcome YES. -/
def dbC2 : DB :=
  { whales := []
    trades := []
    markets := [{ market_id := "m", question := "q", resolved := true
                  resolution := some "YES" }]
    next_id := 1 }

/-- Claim C2, counterexample: resolving an already-YES-resolved market as
NO silently overwrites the stored outcome — no failure, no no-op. -/
theorem resolve_market_overwrites_cx :
    dbC2.markets.map Market.resolution = [some "YES"] ∧
    (Database.resolve_market dbC2 "m" "NO").markets.map Market.resolution =
      [some "NO"] := by
  constructor <;> with_unfolding_all rfl

/-- A database whose only trade is already resolved as a WIN with
pnl 100, owned by a whale with one recorded win. -/
def dbC3 : DB :=
  { whales := [{ address := "0xa", win_count := 1, loss_count := 0 }]
    trades := [{ id := 1, whale_address := "0xa", market_id := "m"
                 market_question := "q", side := "YES", size := 100
                 entry_price := 1/2, resolved := true, outcome := some "WIN"
                 pnl := some 100 }]
    markets := []
    next_id := 2 }

/-- Claim C3, counterexample: `Database.resolve_trade` is not a no-op on
an already-resolved id — called again with a different outcome it
overwrites the stored outcome and pnl. -/
theorem resolve_trade_overwrites_cx :
    dbC3.trades.map Trade.outcome = [some "WIN"] ∧
    (Database.resolve_trade dbC3 1 "LOSS" (-100)).trades.map Trade.outcome =
      [some "LOSS"] ∧
    (Database.resolve_trade dbC3 1 "LOSS" (-100)).trades.map Trade.pnl =
      [some (-100)] := by
  refine ⟨?_, ?_, ?_⟩ <;> with_unfolding_all rfl

/-- Claim C3, amended: a second market-level resolution pass is a no-op
on positions and counters — `resolve_market_trades` only selects
unresolved positions, so when every position of the market is already
resolved it changes no trade row and no participant counter (each
resolved position therefore contributes its single counter increment
exactly once along this path); `Database.resolve_trade` itself, however,
overwrites unconditionally. -/
theorem resolveMarketTrades_second_pass_noop (db : DB) (mid winner : String)
    (h : ∀ t ∈ db.trades, t.market_id = mid → t.resolved = true) :
    (ResolutionChecker.resolveMarketTrades mid winner db).trades = db.trades ∧
    (ResolutionChecker.resolveMarketTrades mid winner db).whales = db.whales := by
  have hsel : ResolutionChecker.selectedTrades mid db = [] := by
    unfold ResolutionChecker.selectedTrades
    rw [List.filter_eq_nil_iff]
    intro t ht
    by_cases hm : t.market_id = mid
    · simp [hm, h t ht hm]
    · simp [hm]
  constructor
  · show db.trades.map (ResolutionChecker.resolveTradeRow mid winner) = db.trades
    have hfix : ∀ t ∈ db.trades,
        ResolutionChecker.resolveTradeRow mid winner t = t := by
      intro t ht
      unfold ResolutionChecker.resolveTradeRow
      rw [if_neg]
      rintro ⟨hm, hr⟩
      rw [h t ht hm] at hr
      exact absurd hr (by simp)
    exact (List.map_congr_left hfix).trans (List.map_id _)
  · show db.whales.map _ = db.whales
    have hfix : ∀ w ∈ db.whales,
        (fun w : Whale =>
          { w with
            win_count := w.win_count +
              ResolutionChecker.whaleWins winner w.address
                (ResolutionChecker.selectedTrades mid db)
            loss_count := w.loss_count +
              ResolutionChecker.whaleLosses winner w.address
                (ResolutionChecker.selectedTrades mid db) }) w = w := by
      intro w _
      simp only [hsel, ResolutionChecker.whaleWins, ResolutionChecker.whaleLosses,
        List.filter_nil, List.length_nil, Nat.add_zero]
    exact (List.map_congr_left hfix).trans (List.map_id _)

/-- Claim C3, witness: on a database whose single trade of market m is
already resolved, a second resolution pass changes neither the trades
nor the whales table. -/
theorem resolveMarketTrades_second_pass_noop_witness :
    (ResolutionChecker.resolveMarketTrades "m" "YES" dbC3).trades = dbC3.trades ∧
    (ResolutionChecker.resolveMarketTrades "m" "YES" dbC3).whales = dbC3.whales :=
  resolveMarketTrades_second_pass_noop dbC3 "m" "YES" (by
    intro t ht hm
    simp only [dbC3, List.mem_singleton] at ht
    subst ht
    rfl)

/-- An unresolved YES position of size 100 at entry price 0.5, on an
unresolved market. -/
def dbC1 : DB :=
  { whales := [{ address := "0xa", win_count := 0, loss_count := 0 }]
    trades := [{ id := 1, whale_address := "0xa", market_id := "m"
                 market_question := "q", side := "YES", size := 100
                 entry_price := 1/2, resolved := false, outcome := none
                 pnl := none }]
    markets := [{ market_id := "m", question := "q", resolved := false
                  resolution := none }]
    next_id := 2 }

/-- Claim C1, counterexample: when the market resolves through
`Database.resolve_market` / `resolve_trades_by_market`, the winning
position of size 100 at entry price 0.5 is assigned pnl
`size * (1 - entry_price) = 50`, not the claimed
`size/entry_price - size = 100`. -/
theorem resolve_trades_by_market_pnl_cx :
    (Database.resolve_trades_by_market dbC1 "m" "YES").trades.map Trade.pnl =
      [some 50] ∧
    (50 : ℚ) ≠ 100 / (1/2) - 100 := by
  constructor
  · with_unfolding_all rfl
  · norm_num

/-- Claim C1, amended: along the Resolution Engine path
(`ResolutionChecker.resolve_market_trades`), every still-unresolved
position on the resolving market with a positive entry price is resolved
as WIN with pnl `size/entry_price - size` when its side equals the
winning outcome, and as LOSS with pnl `-size` otherwise; the alternative
path `Database.resolve_trades_by_market` instead assigns
`size * (1 - entry_price)` and `-size * entry_price`. -/
theorem resolveMarketTrades_pnl_model (db : DB) (mid winner : String)
    (t : Trade) (ht : t ∈ db.trades) (hm : t.market_id = mid)
    (hr : t.resolved = false) (hp : 0 < t.entry_price) :
    ∃ t' ∈ (ResolutionChecker.resolveMarketTrades mid winner db).trades,
      t'.id = t.id ∧ t'.resolved = true ∧
      (upperStr t.side = winner →
        t'.outcome = some "WIN" ∧
        t'.pnl = some (t.size / t.entry_price - t.size)) ∧
      (upperStr t.side ≠ winner →
        t'.outcome = some "LOSS" ∧ t'.pnl = some (-t.size)) := by
  refine ⟨ResolutionChecker.resolveTradeRow mid winner t,
    List.mem_map_of_mem _ ht, ?_⟩
  unfold ResolutionChecker.resolveTradeRow
  rw [if_pos ⟨hm, hr⟩]
  refine ⟨rfl, rfl, ?_, ?_⟩
  · intro hw
    have hwon : ResolutionChecker.tradeWon winner t = true := by
      simp [ResolutionChecker.tradeWon, hw]
    constructor
    · simp [hwon]
    · simp only [ResolutionChecker.tradePnl, ResolutionChecker.coercedEntryPrice,
        if_neg (ne_of_gt hp), hwon, if_pos hp, if_true]
  · intro hw
    have hwon : ResolutionChecker.tradeWon winner t = false := by
      simp [ResolutionChecker.tradeWon, hw]
    constructor
    · simp [hwon]
    · simp [ResolutionChecker.tradePnl, hwon]

/-- An unresolved YES position of size 100 at entry price 0.5. -/
def tC1a : Trade :=
  { id := 1, whale_address := "0xa", market_id := "m", market_question := "q"
    side := "YES", size := 100, entry_price := 1/2, resolved := false
    outcome := none, pnl := none }

/-- An unresolved NO position of size 100 at entry price 0.5. -/
def tC1b : Trade :=
  { id := 2, whale_address := "0xa", market_id := "m", market_question := "q"
    side := "NO", size := 100, entry_price := 1/2, resolved := false
    outcome := none, pnl := none }

/-- A database holding the two positions above on one unresolved market. -/
def dbC1w : DB :=
  { whales := [{ address := "0xa", win_count := 0, loss_count := 0 }]
    trades := [tC1a, tC1b]
    markets := [{ market_id := "m", question := "q", resolved := false
                  resolution := none }]
    next_id := 3 }

/-- Claim C1, witness: with winning outcome YES, the YES position of
size 100 at 0.5 resolves WIN with pnl `100/0.5 - 100 = 100` and the NO
position of size 100 resolves LOSS with pnl `-100`. -/
theorem resolveMarketTrades_pnl_model_witness :
    (∃ t' ∈ (ResolutionChecker.resolveMarketTrades "m" "YES" dbC1w).trades,
      t'.id = 1 ∧ t'.resolved = true ∧ t'.outcome = some "WIN" ∧
      t'.pnl = some 100) ∧
    (∃ t' ∈ (ResolutionChecker.resolveMarketTrades "m" "YES" dbC1w).trades,
      t'.id = 2 ∧ t'.resolved = true ∧ t'.outcome = some "LOSS" ∧
      t'.pnl = some (-100)) := by
  constructor
  · obtain ⟨t', ht', hid, hres, hwin, _⟩ :=
      resolveMarketTrades_pnl_model dbC1w "m" "YES" tC1a
        (by simp [dbC1w]) rfl rfl (by norm_num [tC1a])
    obtain ⟨ho, hpnl⟩ := hwin (by with_unfolding_all rfl)
    refine ⟨t', ht', hid, hres, ho, ?_⟩
    rw [hpnl]
    norm_num [tC1a]
  · obtain ⟨t', ht', hid, hres, _, hloss⟩ :=
      resolveMarketTrades_pnl_model dbC1w "m" "YES" tC1b
        (by simp [dbC1w]) rfl rfl (by norm_num [tC1b])
    obtain ⟨ho, hpnl⟩ := hloss (by with_unfolding_all decide)
    refine ⟨t', ht', hid, hres, ho, ?_⟩
    rw [hpnl]
    norm_num [tC1b]

/-- An unresolved winning-side position with entry price 0. -/
def dbC10 : DB :=
  { whales := [{ address := "0xa", win_count := 0, loss_count := 0 }]
    trades := [{ id := 1, whale_address := "0xa", market_id := "m"
                 market_question := "q", side := "YES", size := 100
                 entry_price := 0, resolved := false, outcome := none
                 pnl := none }]
    markets := [{ market_id := "m", question := "q", resolved := false
                  resolution := none }]
    next_id := 2 }

/-- Claim C10, counterexample: a winning position with entry price 0 is
*not* left unresolved — the zero price is silently coerced to 0.5
(`entry_price or 0.5`), and the position is resolved as WIN with the
assigned pnl `100/0.5 - 100 = 100`. -/
theorem resolveMarketTrades_zero_entry_cx :
    dbC10.trades.map Trade.entry_price = [0] ∧
    (ResolutionChecker.resolveMarketTrades "m" "YES" dbC10).trades.map
        (fun t => (t.resolved, t.outcome, t.pnl)) =
      [(true, some "WIN", some 100)] := by
  constructor <;> with_unfolding_all rfl

/-- Claim C10, amended: resolution never divides by a zero entry price —
but not by skipping the position: `float(entry_price or 0.5)` coerces a
zero entry price to 0.5, so a winning position with entry price 0 is
resolved as WIN with pnl `size/0.5 - size` rather than being flagged as
a data error and left unresolved. -/
theorem resolveMarketTrades_zero_entry (db : DB) (mid winner : String)
    (t : Trade) (ht : t ∈ db.trades) (hm : t.market_id = mid)
    (hr : t.resolved = false) (hp : t.entry_price = 0)
    (hw : upperStr t.side = winner) :
    ∃ t' ∈ (ResolutionChecker.resolveMarketTrades mid winner db).trades,
      t'.id = t.id ∧ t'.resolved = true ∧ t'.outcome = some "WIN" ∧
      t'.pnl = some (t.size / (1/2) - t.size) := by
  refine ⟨ResolutionChecker.resolveTradeRow mid winner t,
    List.mem_map_of_mem _ ht, ?_⟩
  unfold ResolutionChecker.resolveTradeRow
  rw [if_pos ⟨hm, hr⟩]
  have hwon : ResolutionChecker.tradeWon winner t = true := by
    simp [ResolutionChecker.tradeWon, hw]
  refine ⟨rfl, rfl, by simp [hwon], ?_⟩
  simp only [ResolutionChecker.tradePnl, ResolutionChecker.coercedEntryPrice,
    hp, if_pos rfl, hwon, if_true]
  norm_num

/-- Claim C10, witness: the concrete zero-entry-price winning position of
size 100 is resolved as WIN with pnl `100/0.5 - 100`. -/
theorem resolveMarketTrades_zero_entry_witness :
    ∃ t' ∈ (ResolutionChecker.resolveMarketTrades "m" "YES" dbC10).trades,
      t'.id = 1 ∧ t'.resolved = true ∧ t'.outcome = some "WIN" ∧
      t'.pnl = some (100 / (1/2 : ℚ) - 100) := by
  obtain ⟨t', ht', hid, hres, ho, hpnl⟩ :=
    resolveMarketTrades_zero_entry dbC10 "m" "YES"
      { id := 1, whale_address := "0xa", market_id := "m"
        market_question := "q", side := "YES", size := 100
        entry_price := 0, resolved := false, outcome := none, pnl := none }
      (by simp [dbC10]) rfl rfl rfl (by with_unfolding_all rfl)
  exact ⟨t', ht', hid, hres, ho, hpnl⟩

theorem add_market_trades (db : DB) (m q : String) :
    (Database.add_market db m q).trades = db.trades := by
  unfold Database.add_market
  split <;> rfl

/-- A database already holding a position with key ("0xa", "m", "YES"). -/
def dbC4 : DB :=
  { whales := [{ address := "0xa", win_count := 0, loss_count := 0 }]
    trades := [{ id := 1, whale_address := "0xa", market_id := "m"
                 market_question := "q", side := "YES", size := 100
                 entry_price := 1/2, resolved := false, outcome := none
                 pnl := none }]
    markets := [{ market_id := "m", question := "q", resolved := false
                  resolution := none }]
    next_id := 2 }

/-- Claim C4, counterexample: `Database.add_trade` performs no duplicate
check — called on a key that already exists it inserts a second stored
position for that key. -/
theorem add_trade_duplicate_cx :
    Database.trade_exists dbC4 "0xa" "m" "YES" = true ∧
    Tracker.countKey (Database.add_trade dbC4 "0xa" "m" "q" "YES" 100 (1/2)).2
      "0xa" "m" "YES" = 2 := by
  constructor <;> with_unfolding_all rfl

/-- Claim C4, amended: duplicate suppression lives in the caller, not in
`add_trade`: `WhaleTracker.check_whale_positions` skips insertion when
`trade_exists` reports the (participant, market, side) key, so along the
tracker path a store holding at most one position for the key still
holds at most one after processing a position with that key. -/
theorem processPosition_key_bound (db : DB) (wa : String)
    (pos : Tracker.Position) :
    Tracker.countKey (Tracker.processPosition db wa pos) wa pos.market_id
        pos.side ≤
      max 1 (Tracker.countKey db wa pos.market_id pos.side) := by
  unfold Tracker.processPosition
  by_cases h0 : pos.market_id = ""
  · rw [if_pos h0]
    exact le_max_right _ _
  · rw [if_neg h0]
    by_cases hex : Database.trade_exists db wa pos.market_id pos.side = true
    · rw [if_pos hex]
      exact le_max_right _ _
    · rw [if_neg hex]
      have h0c : Tracker.countKey db wa pos.market_id pos.side = 0 := by
        unfold Tracker.countKey
        rw [List.length_eq_zero, List.filter_eq_nil_iff]
        intro t htt
        unfold Database.trade_exists at hex
        rw [Bool.not_eq_true, List.any_eq_false] at hex
        simpa using hex t htt
      have hstep : Tracker.countKey
          ((Database.add_trade
            (Database.add_market db pos.market_id pos.market_question) wa
            pos.market_id pos.market_question pos.side pos.size
            pos.entry_price).2) wa pos.market_id pos.side =
          Tracker.countKey db wa pos.market_id pos.side + 1 := by
        unfold Tracker.countKey Database.add_trade
        simp only [add_market_trades, List.filter_append, List.length_append]
        simp
      rw [hstep, h0c]
      simp

theorem calculate_edge_eq_round_rawEdge (wr roi p : ℚ) (d : String)
    (hd : d = "YES" ∨ d = "NO") :
    Signals.calculate_edge wr roi p d =
      Signals.roundTenth (Signals.rawEdge wr roi p d) := by
  have hy : upperStr "YES" = "YES" := by with_unfolding_all rfl
  have hn : upperStr "NO" = "NO" := by with_unfolding_all rfl
  have hne : ("NO" : String) ≠ "YES" := by with_unfolding_all decide
  rcases hd with h | h <;> subst h
  · simp [Signals.calculate_edge, Signals.rawEdge, Signals.impliedProbability,
      Signals.marketImpliedProbability, hy]
  · simp [Signals.calculate_edge, Signals.rawEdge, Signals.impliedProbability,
      Signals.marketImpliedProbability, hn, hne]

/-- Claim C7, counterexample: for a proven whale with win rate 60 and
ROI 10 on an active YES market priced 0.6284, the claim's raw edge
`(0.66 - 0.6284)/0.6284*100 ≈ 5.03` strictly exceeds 5, yet no signal is
emitted — the code rounds the edge to one decimal (5.0) before the
strict `> 5` comparison. -/
theorem signalFor_raw_edge_cx :
    Signals.signalFor { address := "0xw", win_rate := 60, roi := 10
                        resolved_trades := 30, total_pnl := 500 }
        { market_id := "m", market_question := "q", side := "YES"
          size := 100, entry_price := 55/100 }
        (some { yes_price := 6284/10000, no_price := 3716/10000
                active := true }) = none ∧
    5 < Signals.rawEdge 60 10 (6284/10000) "YES" := by
  constructor
  · with_unfolding_all rfl
  · show 5 < Signals.rawEdge 60 10 (6284/10000) "YES"
    with_unfolding_all decide

/-- Claim C7, amended: for an open recent position of a proven
participant whose live price data is available and active, a signal is
emitted if and only if the edge — computed by the claim's formula from
`implied_probability = min(0.95, win_rate/100 * min(1.5, 1 + roi/100))`
and the side's market-implied probability, then *rounded to one decimal*
(Python `round(edge, 1)`) — strictly exceeds 5; a rounded edge of
exactly 5.0 is excluded, 5.1 included. -/
theorem signalFor_emits_iff (whale : Signals.ProvenWhale)
    (trade : Signals.OpenTrade) (pd : Signals.PriceData)
    (hmid : trade.market_id ≠ "") (hact : pd.active = true)
    (hside : trade.side = "YES" ∨ trade.side = "NO") :
    ((Signals.signalFor whale trade (some pd)).isSome = true ↔
      5 < Signals.roundTenth (Signals.rawEdge whale.win_rate whale.roi
        (if trade.side = "YES" then pd.yes_price else pd.no_price)
        trade.side)) := by
  have hy : upperStr "YES" = "YES" := by with_unfolding_all rfl
  have hn : upperStr "NO" = "NO" := by with_unfolding_all rfl
  have hyne : ("YES" : String) ≠ "" := by with_unfolding_all decide
  have hnne : ("NO" : String) ≠ "" := by with_unfolding_all decide
  have hne : ("NO" : String) ≠ "YES" := by with_unfolding_all decide
  unfold Signals.signalFor
  rw [if_neg hmid]
  rcases hside with h | h
  · rw [h]
    dsimp only
    rw [if_neg hyne, hy, hact]
    rw [calculate_edge_eq_round_rawEdge _ _ _ _ (Or.inl rfl)]
    by_cases h5 : 5 < Signals.roundTenth (Signals.rawEdge whale.win_rate
        whale.roi (if ("YES" : String) = "YES" then pd.yes_price else pd.no_price) "YES")
    · simp [h5]
    · simp [h5]
  · rw [h]
    dsimp only
    rw [if_neg hnne, hn, hact]
    rw [calculate_edge_eq_round_rawEdge _ _ _ _ (Or.inr rfl)]
    by_cases h5 : 5 < Signals.roundTenth (Signals.rawEdge whale.win_rate
        whale.roi (if ("NO" : String) = "YES" then pd.yes_price else pd.no_price) "NO")
    · simp [h5]
    · simp [h5]

/-- Claim C7, witness: a proven whale with win rate 65 and ROI 20 on an
active market priced 0.5 — the emission test coincides with the strict
threshold on the rounded edge. -/
theorem signalFor_emits_iff_witness :
    ((Signals.signalFor { address := "0xw", win_rate := 65, roi := 20
                          resolved_trades := 40, total_pnl := 1000 }
        { market_id := "m", market_question := "q", side := "YES"
          size := 100, entry_price := 1/2 }
        (some { yes_price := 1/2, no_price := 1/2
                active := true })).isSome = true ↔
      5 < Signals.roundTenth (Signals.rawEdge 65 20
        (if ("YES" : String) = "YES" then (1/2 : ℚ) else 1/2) "YES")) :=
  signalFor_emits_iff _ _ _ (by with_unfolding_all decide) rfl (Or.inl rfl)

/-- Claim C8: `rank_whales` orders every input list of qualified
participants in descending order of
`ranking_score = roi * sample_confidence + (win_rate - 50) * 0.5 +
min(profit_factor, 3) * 10` with `sample_confidence =
min(1, resolved_trade_count / 50)`: the output is a permutation of the
input, pairwise non-increasing in score, and equal-score participants
keep their original relative order (stable sort). -/
theorem rank_whales_ordering (l : List Scoring.PerfRecord) :
    List.Perm (Scoring.rank_whales l) l ∧
    (Scoring.rank_whales l).Pairwise
      (fun a b => Scoring.ranking_score b ≤ Scoring.ranking_score a) ∧
    ∀ c : ℚ, (Scoring.rank_whales l).filter
        (fun w => decide (Scoring.ranking_score w = c)) =
      l.filter (fun w => decide (Scoring.ranking_score w = c)) :=
  ⟨sortKeyDesc_perm _ l, sortKeyDesc_sorted _ l,
    fun c => filter_sortKeyDesc _ c l⟩

/-- Claim C9, amended: `detect_consensus_signals` produces a consensus
group for a (market, direction) key if and only if at least 2 *signals*
carry that key; participants are not deduplicated, so two signals from
one participant also form a group (when every participant contributes at
most one signal per key, the condition coincides with two distinct
participants). -/
theorem detect_consensus_iff (sigs : List Signals.Signal) (m d : String) :
    (∃ g ∈ Signals.detect_consensus_signals sigs,
      g.market_id = m ∧ g.direction = d) ↔
      2 ≤ (Signals.groupSignals sigs (m, d)).length := by
  unfold Signals.detect_consensus_signals
  constructor
  · rintro ⟨g, hg, hm, hd⟩
    have hg2 : g ∈ ((sigs.map Signals.signalKey).dedup).filterMap
        (Signals.mkConsensus sigs) :=
      (sortKeyDesc_perm _ _).subset hg
    rw [List.mem_filterMap] at hg2
    obtain ⟨k, hk, hmk⟩ := hg2
    obtain ⟨k1, k2⟩ := k
    unfold Signals.mkConsensus at hmk
    by_cases hlen : 2 ≤ (Signals.groupSignals sigs (k1, k2)).length
    · rw [if_pos hlen] at hmk
      have hgk := Option.some.inj hmk
      rw [← hgk] at hm hd
      dsimp at hm hd
      rw [← hm, ← hd]
      exact hlen
    · rw [if_neg hlen] at hmk
      exact absurd hmk (by simp)
  · intro hlen
    have hmem : (m, d) ∈ (sigs.map Signals.signalKey).dedup := by
      rw [List.mem_dedup]
      have hpos : 0 < (Signals.groupSignals sigs (m, d)).length :=
        lt_of_lt_of_le (by norm_num) hlen
      obtain ⟨s, hs⟩ := List.exists_mem_of_length_pos hpos
      have hs' := List.mem_filter.1 hs
      rw [List.mem_map]
      refine ⟨s, hs'.1, ?_⟩
      have hp := hs'.2
      simp only [Bool.and_eq_true, decide_eq_true_eq] at hp
      unfold Signals.signalKey
      rw [hp.1, hp.2]
    have hmk : ∃ G, Signals.mkConsensus sigs (m, d) = some G ∧
        G.market_id = m ∧ G.direction = d := by
      unfold Signals.mkConsensus
      rw [if_pos hlen]
      exact ⟨_, rfl, rfl, rfl⟩
    obtain ⟨G, hG, hGm, hGd⟩ := hmk
    exact ⟨G, ((sortKeyDesc_perm _ _).mem_iff).2
      (List.mem_filterMap.2 ⟨(m, d), hmem, hG⟩), hGm, hGd⟩

/-- Two individual signals from the *same* participant on the same
(market, direction) key. -/
def sigsC9 : List Signals.Signal :=
  [{ market_id := "m", market_question := "q", direction := "YES"
     whale_address := "0xa", win_rate := 65, resolved_trades := 30
     edge_estimate := 10 },
   { market_id := "m", market_question := "q", direction := "YES"
     whale_address := "0xa", win_rate := 65, resolved_trades := 30
     edge_estimate := 12 }]

/-- Claim C9, counterexample: two signals of one and the same participant
on one key produce a consensus group, although only one distinct
participant is involved. -/
theorem detect_consensus_single_participant_cx :
    (Signals.detect_consensus_signals sigsC9).length = 1 ∧
    (sigsC9.map (fun s => s.whale_address)).dedup = ["0xa"] := by
  constructor <;> with_unfolding_all rfl
